import Mathlib

/-!
Verification of the flexible-date flight search and ranking engine of the
`aibilet` repository (`src/services/aviasales_service.py` and
`src/services/dialog_state.py`), as a shallow embedding in Lean 4.

Modelling conventions:
* Python numbers (ticket prices, durations, scores) are modelled as `ℚ`;
  Python integer day counts as `ℕ`.
* A Python value that may be absent from a dict is an `Option`.
* Python code that may raise an exception is modelled with the result type
  `PyRes`: `PyRes.ok v` is a normal return and `PyRes.exn` a raised
  exception (caught by the enclosing `try`/`except` blocks exactly where the
  source catches them).
* `datetime.date` values are modelled by the `Date` structure with explicit
  Gregorian day arithmetic mirroring `timedelta(days=…)`.
* Python's stable `list.sort(key=…)` is modelled by the stable insertion
  sort `pySort` with the corresponding boolean "key less-or-equal" relation;
  stable ascending sorting is uniquely determined, so this coincides with
  the behaviour of CPython's sort.
-/

namespace Aibilet

/-- Result of running a piece of Python code that may raise: either a normal
value or an exception. -/
inductive PyRes (α : Type) where
  | ok (val : α)
  | exn
deriving DecidableEq, Repr

/-! ## Date model (`datetime.date` plus `timedelta` day arithmetic) -/

/-- A Gregorian calendar date, `year`-`month`-`day`. -/
structure Date where
  year : Nat
  month : Nat
  day : Nat
deriving DecidableEq, Repr

/-- Gregorian leap-year rule (as implemented by Python's `datetime`). -/
def isLeapYear (y : Nat) : Bool :=
  (y % 4 = 0 && y % 100 ≠ 0) || y % 400 = 0

/-- Number of days of month `m` in year `y`. -/
def daysInMonth (y m : Nat) : Nat :=
  if m = 2 then (if isLeapYear y then 29 else 28)
  else if m = 4 ∨ m = 6 ∨ m = 9 ∨ m = 11 then 30
  else 31

/-- The calendar day after `d` (model of `d + timedelta(days=1)`). -/
def nextDay (d : Date) : Date :=
  if d.day < daysInMonth d.year d.month then ⟨d.year, d.month, d.day + 1⟩
  else if d.month < 12 then ⟨d.year, d.month + 1, 1⟩
  else ⟨d.year + 1, 1, 1⟩

/-- The calendar day before `d` (model of `d - timedelta(days=1)`). -/
def prevDay (d : Date) : Date :=
  if 1 < d.day then ⟨d.year, d.month, d.day - 1⟩
  else if 1 < d.month then ⟨d.year, d.month - 1, daysInMonth d.year (d.month - 1)⟩
  else ⟨d.year - 1, 12, 31⟩

/-- Model of `d + timedelta(days=n)` for `0 ≤ n`. -/
def addDays (d : Date) : Nat → Date
  | 0 => d
  | n + 1 => nextDay (addDays d n)

/-- Model of `d - timedelta(days=n)` for `0 ≤ n`. -/
def subDays (d : Date) : Nat → Date
  | 0 => d
  | n + 1 => prevDay (subDays d n)

/-! ## Date expansion of `search_tickets_with_flexible_dates`
(`src/services/aviasales_service.py`, lines 340-393) -/

/-- The `duration_days` entry of the `date_context` dict: either a single
number of days or a `[min, max]` range. -/
inductive DurationDays where
  | single (n : Nat)
  | range (lo hi : Nat)
deriving DecidableEq, Repr

/-- The `date_context` dict of a search request (the keys read by
`search_tickets_with_flexible_dates`). -/
structure DateContext where
  is_start_of_month : Bool
  duration_days : Option DurationDays
deriving DecidableEq, Repr

/-- Python's `range(lo, hi, step)` for a positive `step`, as a list. -/
def pyRange (lo hi step : Nat) : List Nat :=
  if lo < hi then List.range' lo ((hi - 1 - lo) / step + 1) step else []

/-- The list `search_dates` built at lines 340-354: the first five days of
the month when `is_start_of_month`, otherwise a ±2-day window around the
base departure date (in the order produced by `range(-2, 3)`). -/
def searchDatesOf (ctx : DateContext) (base : Date) : List Date :=
  if ctx.is_start_of_month then
    (List.range 5).map (fun day => addDays base day)
  else
    [subDays base 2, subDays base 1, base, addDays base 1, addDays base 2]

/-- The list of durations tried for one departure date when `duration_days`
is the range `[lo, hi]`: `range(min_days, max_days + 1, step)` with the
adaptive step `max(2, (max_days - min_days) // 3)` (lines 374-376). -/
def durationSamples (lo hi : Nat) : List Nat :=
  pyRange lo (hi + 1) (max 2 ((hi - lo) / 3))

/-- The `(departure, return)` date pairs queried for one entry of
`search_dates` (lines 363-391): a duration range fans out into one pair per
sampled duration, a single duration gives one round-trip pair, and no
duration information gives a single one-way pair. -/
def datePairsFor (ctx : DateContext) (sd : Date) : List (Date × Option Date) :=
  match ctx.duration_days with
  | none => [(sd, none)]
  | some (.single n) => [(sd, some (addDays sd n))]
  | some (.range lo hi) =>
      (durationSamples lo hi).map (fun dur => (sd, some (addDays sd dur)))

/-- All `(departure, return)` date pairs queried by one call of
`search_tickets_with_flexible_dates`; each pair becomes one task in the
`tasks` list awaited by `asyncio.gather` (lines 340-393). -/
def expandPairs (ctx : DateContext) (base : Date) : List (Date × Option Date) :=
  (searchDatesOf ctx base).flatMap (datePairsFor ctx)

/-! ## Tickets and scoring
(`src/services/aviasales_service.py`, `_calculate_ticket_score`, lines
77-108) -/

/-- A candidate ticket, keeping exactly the dict keys that the ranking code
reads: `price`, `duration` (minutes) and `transfers`.  A `none` field models
a missing dict key. -/
structure Ticket where
  price : Option ℚ
  duration : Option ℚ
  transfers : Option ℤ
deriving DecidableEq, Repr

/-- Model of `_calculate_ticket_score`.  The weighted score
`5·(1/(price/10000)) + 4·(1/(duration/240)) + 2·(1/(transfers+1))` is
computed inside a `try`/`except` that turns any raised exception — a missing
`price` key (`KeyError`), a zero price, a zero (or defaulted-to-zero)
duration, or `transfers == -1` (`ZeroDivisionError`) — into the fallback
score `0.0`.  Exceptions are tested in the order the source raises them. -/
def _calculate_ticket_score (t : Ticket) : ℚ :=
  match t.price with
  | none => 0
  | some p =>
      if p = 0 then 0
      else
        if t.duration.getD 0 = 0 then 0
        else
          if t.transfers.getD 0 = -1 then 0
          else
            5 * (1 / (p / 10000)) + 4 * (1 / (t.duration.getD 0 / 240)) +
              2 * (1 / ((t.transfers.getD 0 : ℚ) + 1))

/-! ## Stable sorting (Python's `list.sort`) -/

/-- Stable insertion of `x` into `l`: `x` goes in front of the first element
`y` with `le x y`.  With `le = (key ≤ key)` this yields exactly Python's
stable ascending sort by `key`. -/
def pyInsert (le : α → α → Bool) (x : α) : List α → List α
  | [] => [x]
  | y :: ys => if le x y then x :: y :: ys else y :: pyInsert le x ys

/-- Stable insertion sort; behaviourally identical to CPython's stable
`list.sort` for the boolean key comparison `le` (stable ascending sorting
is a unique specification). -/
def pySort (le : α → α → Bool) : List α → List α
  | [] => []
  | x :: xs => pyInsert le x (pySort le xs)

/-- The sort key of line 117, `x.get('price', float('inf'))`, as a
less-or-equal comparison: a missing price compares as `+∞`. -/
def priceKeyLE (a b : Ticket) : Bool :=
  match a.price, b.price with
  | some x, some y => x ≤ y
  | some _, none => true
  | none, some _ => false
  | none, none => true

/-! ## Price-band grouping (`_rank_tickets`, lines 116-134) -/

/-- The boolean test of lines 125-126 for a ticket `t` against the minimum
price `m`: `((t['price'] - min_price) / min_price) * 100 <= 10`.  Only
meaningful when `t` has a price and `m ≠ 0`; the callers below raise
(`PyRes.exn`) in the other cases, as the source does. -/
def closeToMin (m : ℚ) (t : Ticket) : Bool :=
  match t.price with
  | none => false
  | some p => decide ((p - m) / m * 100 ≤ 10)

/-- The grouping loop of lines 121-134.  State: `groups` is
`price_groups`, `current` is `current_group`.  For each ticket the price
difference against the *global* minimum `m` is computed first (raising on a
missing `price` key or on `m = 0`), then the ticket either joins
`current_group` or flushes it and starts a new group.  After the loop a
non-empty `current_group` is appended. -/
def buildGroupsGo (m : ℚ) :
    List Ticket → List (List Ticket) → List Ticket → PyRes (List (List Ticket))
  | [], groups, current =>
      .ok (if current.isEmpty then groups else groups ++ [current])
  | t :: rest, groups, current =>
      match t.price with
      | none => .exn
      | some p =>
          if m = 0 then .exn
          else if current.isEmpty || decide ((p - m) / m * 100 ≤ 10) then
            buildGroupsGo m rest groups (current ++ [t])
          else
            buildGroupsGo m rest (groups ++ [current]) [t]

/-- Lines 118-134 of `_rank_tickets`: read `min_price = tickets[0]['price']`
(a `KeyError` if the cheapest ticket has no price) and run the grouping
loop over the (already price-sorted) pool. -/
def codeBands (ts : List Ticket) : PyRes (List (List Ticket)) :=
  match ts.head? with
  | none => .ok []
  | some t0 =>
      match t0.price with
      | none => .exn
      | some m => buildGroupsGo m ts [] []

/-! ## Within-band scoring and ordering (`_rank_tickets`, lines 136-150) -/

/-- Scoring of one ticket inside a group (lines 140-145): the base score
from `_calculate_ticket_score`, plus — when the group has more than one
member — the duration bonus `(1 / (duration / 240)) * 2`, whose division
raises `ZeroDivisionError` when the (defaulted) duration is zero. -/
def scoreTicket (multi : Bool) (t : Ticket) : PyRes (Ticket × ℚ) :=
  if multi then
    if t.duration.getD 0 = 0 then .exn
    else .ok (t, _calculate_ticket_score t + 1 / (t.duration.getD 0 / 240) * 2)
  else .ok (t, _calculate_ticket_score t)

/-- Score every ticket of a group, in order, propagating a raised
exception. -/
def scoreGroup (multi : Bool) : List Ticket → PyRes (List (Ticket × ℚ))
  | [] => .ok []
  | t :: ts =>
      match scoreTicket multi t with
      | .exn => .exn
      | .ok s =>
          match scoreGroup multi ts with
          | .exn => .exn
          | .ok rest => .ok (s :: rest)

/-- Descending comparison by `_score` for `group.sort(key=…, reverse=True)`
(line 147); Python's `reverse=True` sort is stable descending. -/
def scoreDescLE (a b : Ticket × ℚ) : Bool :=
  decide (b.2 ≤ a.2)

/-- Process one group (lines 138-148): attach scores, then sort the group
by score descending (stably). -/
def sortGroup (g : List Ticket) : PyRes (List Ticket) :=
  match scoreGroup (decide (1 < g.length)) g with
  | .exn => .exn
  | .ok scored => .ok ((pySort scoreDescLE scored).map Prod.fst)

/-- The loop over `price_groups` (lines 137-148): each group is scored and
sorted, and the groups are concatenated in order into `sorted_groups`. -/
def rankGroups : List (List Ticket) → PyRes (List Ticket)
  | [] => .ok []
  | g :: gs =>
      match sortGroup g with
      | .exn => .exn
      | .ok sg =>
          match rankGroups gs with
          | .exn => .exn
          | .ok rest => .ok (sg ++ rest)

/-- The body of `_rank_tickets` after the in-place price sort: grouping
followed by per-group scoring and ordering. -/
def rank_core (sorted : List Ticket) : PyRes (List Ticket) :=
  match codeBands sorted with
  | .exn => .exn
  | .ok gs => rankGroups gs

/-- Model of `_rank_tickets` (lines 110-154).  An empty pool returns `[]`;
otherwise the pool is stably sorted by price (missing prices last, line
117) and the grouping/scoring pipeline runs inside the `try`; the
`except` handler returns `tickets`, which at that point is the
already-sorted list (line 117 sorts in place before any statement that can
raise). -/
def _rank_tickets (ts : List Ticket) : List Ticket :=
  match ts with
  | [] => []
  | _ =>
      match rank_core (pySort priceKeyLE ts) with
      | .ok out => out
      | .exn => pySort priceKeyLE ts

/-! ## The spec's band rule (for comparison with the code's grouping) -/

/-- Modelled from the spec (section 4.4, step 2), for the refinement claim
C2: a greedy partition in which a ticket joins the current band exactly when
`(price − band_start_price) / band_start_price ≤ 0.10`, where
`band_start_price` is the price of the ticket that started the *current*
band; otherwise the ticket starts a new band.  `start` is the current band's
starting price and `current` the current band. -/
def specBandGo : ℚ → List Ticket → List Ticket → List (List Ticket)
  | _, current, [] => [current]
  | start, current, t :: rest =>
      if (t.price.getD 0 - start) / start ≤ 1 / 10 then
        specBandGo start (current ++ [t]) rest
      else
        current :: specBandGo (t.price.getD 0) [t] rest

/-- Modelled from the spec: the band partition of a price-sorted pool under
the spec's band-start rule (C2's wording), to be compared with the source's
`codeBands`. -/
def specBands : List Ticket → List (List Ticket)
  | [] => []
  | t :: rest => specBandGo (t.price.getD 0) [t] rest

/-! ## Fan-out / fan-in orchestration
(`search_tickets_with_flexible_dates`, lines 394-422) -/

/-- The dict returned by one `_search_tickets_for_date` query: a `success`
flag and the `data` list of tickets (both read through `.get`, so a missing
key behaves as `False` / `[]`). -/
structure QueryResult where
  success : Bool
  data : List Ticket
deriving DecidableEq, Repr

/-- One element of the `results` list produced by
`asyncio.gather(*tasks, return_exceptions=True)`: either the dict returned
by the query or an exception object (which fails the `isinstance(result,
dict)` test at line 401). -/
inductive QueryOutcome where
  | result (r : QueryResult)
  | exn
deriving DecidableEq, Repr

/-- The filter of line 401: a settled query contributes its tickets exactly
when it is a dict with a truthy `success` flag and a non-empty `data`
list. -/
def countedQuery : QueryOutcome → Bool
  | .result q => q.success && !q.data.isEmpty
  | .exn => false

/-- The `data` list of a successful query (empty for a failed query or an
exception); used to state that the merged pool is the concatenation of the
successful queries' data lists. -/
def successData : QueryOutcome → List Ticket
  | .result q => if q.success then q.data else []
  | .exn => []

/-- The merge loop of lines 399-403: `all_tickets` is extended, in settling
order, with the `data` of every result that passes the line-401 filter. -/
def gatherTickets : List QueryOutcome → List Ticket
  | [] => []
  | .exn :: rs => gatherTickets rs
  | .result q :: rs =>
      (if q.success && !q.data.isEmpty then q.data else []) ++ gatherTickets rs

/-- The dict returned by `search_tickets_with_flexible_dates`: `success`,
`data`, `error` and `total_found` keys (a `none` field models an absent
key). -/
structure SearchOutcome where
  success : Bool
  data : List Ticket
  error : Option String
  total_found : Option Nat
deriving DecidableEq, Repr

/-- Lines 408-418: after every issued query has settled, an empty merged
pool yields the error value `success=False, error="No tickets found"`
(never an exception), and a non-empty pool is ranked by `_rank_tickets` and
truncated to the top 10, with `success=True`. -/
def flexibleOutcome (rs : List QueryOutcome) : SearchOutcome :=
  if (gatherTickets rs).isEmpty then
    { success := false, data := [], error := some "No tickets found",
      total_found := none }
  else
    { success := true, data := (_rank_tickets (gatherTickets rs)).take 10,
      error := none, total_found := some (gatherTickets rs).length }

/-! ## Dialog state (`src/services/dialog_state.py`) -/

/-- Python truthiness of an optional string field: `None` and `""` are
falsy. -/
def truthyStr : Option String → Bool
  | none => false
  | some s => !(s == "")

/-- The per-user `DialogState` (lines 12-27): the accumulated search
fields; every field starts as `None`. -/
structure DialogState where
  user_id : Nat
  origin : Option String
  destination : Option String
  origin_city : Option String
  destination_city : Option String
  departure_at : Option String
  return_at : Option String
  date_context : Option DateContext
deriving DecidableEq, Repr

/-- `DialogState(user_id)`: the freshly created, empty state. -/
def DialogState.empty (uid : Nat) : DialogState :=
  ⟨uid, none, none, none, none, none, none, none⟩

/-- `DialogState.is_complete` (lines 24-27): true exactly when **all five**
of `origin`, `destination`, `departure_at`, `origin_city` and
`destination_city` are truthy. -/
def DialogState.is_complete (st : DialogState) : Bool :=
  truthyStr st.origin && truthyStr st.destination && truthyStr st.departure_at &&
    truthyStr st.origin_city && truthyStr st.destination_city

/-- One extraction result passed to `update_from_params`: the outer
`Option` is dict-key presence (`none` = key absent, so the old value is
kept), the inner value is the stored value (which may itself be `None`). -/
structure ExtractedParams where
  origin : Option (Option String) := none
  destination : Option (Option String) := none
  origin_city : Option (Option String) := none
  destination_city : Option (Option String) := none
  departure_at : Option (Option String) := none
  return_at : Option (Option String) := none
  date_context : Option (Option DateContext) := none
deriving DecidableEq, Repr

/-- `DialogState.update_from_params` (lines 40-56): every field whose key is
present in `params` overwrites the stored field; absent keys keep the
previous value.  (No statement in the loop can raise, so the surrounding
`try`/`except` never fires.) -/
def DialogState.update_from_params (st : DialogState) (p : ExtractedParams) :
    DialogState :=
  { user_id := st.user_id
    origin := p.origin.getD st.origin
    destination := p.destination.getD st.destination
    origin_city := p.origin_city.getD st.origin_city
    destination_city := p.destination_city.getD st.destination_city
    departure_at := p.departure_at.getD st.departure_at
    return_at := p.return_at.getD st.return_at
    date_context := p.date_context.getD st.date_context }

/-- The params dict passed to `AviasalesService.search_tickets`; a `none`
field models an absent key. -/
structure SearchParams where
  origin : Option String
  destination : Option String
  departure_at : Option String
  return_at : Option String
  flexible_dates : Option Bool
  date_context : Option DateContext
deriving DecidableEq, Repr

/-- `DialogState.to_search_params` (lines 58-87): `none` models the empty
dict returned when a required field (`origin`, `destination`,
`departure_at`) is falsy; otherwise the params dict always carries
`flexible_dates = True`, plus `return_at` and `date_context` when truthy
(a present `date_context` dict is modelled as truthy). -/
def DialogState.to_search_params (st : DialogState) : Option SearchParams :=
  if truthyStr st.origin && truthyStr st.destination && truthyStr st.departure_at then
    some { origin := st.origin
           destination := st.destination
           departure_at := st.departure_at
           flexible_dates := some true
           return_at := if truthyStr st.return_at then st.return_at else none
           date_context := if st.date_context.isSome then st.date_context else none }
  else none

/-! ## Concrete fixtures used by the witness theorems below -/

/-- A concrete ticket with the given price, a 240-minute duration and no
transfers. -/
def ticketOf (p : ℚ) : Ticket :=
  ⟨some p, some 240, some 0⟩

/-- A settled-result list in which no query passes the line-401 filter: an
exception, a failed query and a success with an empty data list. -/
def allFailedResults : List QueryOutcome :=
  [.exn, .result ⟨false, [ticketOf 100]⟩, .result ⟨true, []⟩]

/-- A settled-result list with two successful queries carrying 4 and 6
candidates and three failures (an exception, a failed query, a success with
no data). -/
def mixedResults : List QueryOutcome :=
  [.result ⟨true, [ticketOf 1, ticketOf 2, ticketOf 3, ticketOf 4]⟩,
   .exn,
   .result ⟨false, [ticketOf 5]⟩,
   .result ⟨true, []⟩,
   .result ⟨true, [ticketOf 6, ticketOf 7, ticketOf 8, ticketOf 9,
     ticketOf 10, ticketOf 11]⟩]

/-! ## Parameter validation and search dispatch
(`_validate_params`, lines 31-66, and `search_tickets`, lines 192-206) -/

/-- The IATA shape test of line 49: exactly three characters, all uppercase,
all alphabetic (ASCII model of `str.isupper` / `str.isalpha` on 3-letter
codes). -/
def iataFormatOk (s : String) : Bool :=
  s.length = 3 && s.toList.all (fun c => c.isUpper) &&
    s.toList.all (fun c => c.isAlpha)

/-- Lines 47-51: a falsy (absent or empty) code is skipped; a truthy code
must have the IATA shape. -/
def iataFieldOk (o : Option String) : Bool :=
  match o with
  | none => true
  | some s => if s = "" then true else iataFormatOk s

/-- Model of `datetime.strptime(s, "%Y-%m-%d")` on ASCII inputs: split on
`"-"`, parse the three decimal components, and require a valid Gregorian
calendar date (as `strptime` does); any failure is `none` (a raised
`ValueError` in the source). -/
def parseDate (s : String) : Option Date :=
  match s.splitOn "-" with
  | [ys, ms, ds] =>
      match ys.toNat?, ms.toNat?, ds.toNat? with
      | some y, some mo, some d =>
          if 1 ≤ mo ∧ mo ≤ 12 ∧ 1 ≤ d ∧ d ≤ daysInMonth y mo then
            some ⟨y, mo, d⟩
          else none
      | _, _, _ => none
  | _ => none

/-- Strict chronological order on dates (lexicographic on year, month,
day). -/
def dateLT (a b : Date) : Bool :=
  if a.year ≠ b.year then a.year < b.year
  else if a.month ≠ b.month then a.month < b.month
  else a.day < b.day

/-- Model of `_validate_params` (lines 31-66): required truthy `origin` and
`departure_at`; IATA shape for truthy `origin`/`destination`; parseable
`departure_at`; and, when `return_at` is truthy, a parseable return date
strictly after the departure date. -/
def _validate_params (p : SearchParams) : Bool :=
  if !truthyStr p.origin || !truthyStr p.departure_at then false
  else if !iataFieldOk p.origin || !iataFieldOk p.destination then false
  else
    match p.departure_at with
    | none => false
    | some depStr =>
        match parseDate depStr with
        | none => false
        | some dep =>
            if truthyStr p.return_at then
              match p.return_at with
              | none => false
              | some retStr =>
                  match parseDate retStr with
                  | none => false
                  | some ret => dateLT dep ret
            else true

/-- The three ways `search_tickets` (lines 192-206) can proceed: reject the
params, take the flexible-dates fan-out path, or run a single-date
search. -/
inductive SearchRoute where
  | invalid
  | flexible
  | singleDate
deriving DecidableEq, Repr

/-- The dispatch of `search_tickets` (lines 192-206): failed validation
returns the error value; otherwise `params.get('flexible_dates', True)`
(truthy, with default `True`) selects the flexible-dates fan-out, and only
a stored falsy `flexible_dates` reaches the single-date search. -/
def searchRoute (p : SearchParams) : SearchRoute :=
  if !_validate_params p then .invalid
  else if p.flexible_dates.getD true then .flexible
  else .singleDate

/-! ## Properties of the date expansion -/

/-- Every month has at least 28 days. -/
theorem daysInMonth_ge (y m : Nat) : 28 ≤ daysInMonth y m := by
  unfold daysInMonth
  split
  · split <;> omega
  · split <;> omega

/-- The adaptive duration step samples at most five durations per departure
date. -/
theorem durationSamples_length_le (lo hi : Nat) :
    (durationSamples lo hi).length ≤ 5 := by
  unfold durationSamples pyRange
  split
  · rw [List.length_range']
    have hlen : hi + 1 - 1 - lo = hi - lo := by omega
    rw [hlen]
    have hstep : 2 ≤ max 2 ((hi - lo) / 3) := Nat.le_max_left _ _
    rcases le_or_lt (hi - lo) 9 with h9 | h9
    · have h2 : (hi - lo) / max 2 ((hi - lo) / 3) ≤ (hi - lo) / 2 :=
        Nat.div_le_div_left hstep (by omega)
      have : (hi - lo) / 2 ≤ 4 := by omega
      omega
    · have hmax : max 2 ((hi - lo) / 3) = (hi - lo) / 3 :=
        Nat.max_eq_right (by omega)
      rw [hmax]
      have hq : 0 < (hi - lo) / 3 := by omega
      have h4 : (hi - lo) / ((hi - lo) / 3) < 5 :=
        (Nat.div_lt_iff_lt_mul hq).2 (by omega)
      omega
  · simp

/-- Every branch of the expansion builds exactly five candidate departure
dates. -/
theorem searchDatesOf_length (ctx : DateContext) (base : Date) :
    (searchDatesOf ctx base).length = 5 := by
  unfold searchDatesOf
  split <;> simp

/-- Each departure date contributes at most five date pairs. -/
theorem datePairsFor_length_le (ctx : DateContext) (sd : Date) :
    (datePairsFor ctx sd).length ≤ 5 := by
  unfold datePairsFor
  match ctx.duration_days with
  | none => simp
  | some (.single n) => simp
  | some (.range lo hi) =>
      simpa using durationSamples_length_le lo hi

/-- Claim C1, counterexample: with a start-of-month request and the duration
range `[10, 18]` (so the adaptive step is `max(2, 8 // 3) = 2` and five
durations `10, 12, 14, 16, 18` are sampled for each of the five departure
dates), `search_tickets_with_flexible_dates` issues `5 × 5 = 25` date-pair
queries — strictly more than the 20 the claim allows. -/
theorem c1_counterexample :
    20 <
      (expandPairs { is_start_of_month := true,
                     duration_days := some (.range 10 18) }
        ⟨2025, 6, 1⟩).length := by
  decide

/-- Claim C1, amended: the date expansion inside
`search_tickets_with_flexible_dates` issues at most **25** (not 20)
date-pair queries: five departure dates, each with at most five sampled
durations. -/
theorem c1_amended (ctx : DateContext) (base : Date) :
    (expandPairs ctx base).length ≤ 25 := by
  unfold expandPairs
  rw [List.length_flatMap]
  have hb : ((searchDatesOf ctx base).map (List.length ∘ datePairsFor ctx)).sum ≤
      ((searchDatesOf ctx base).map (List.length ∘ datePairsFor ctx)).length * 5 := by
    simpa [smul_eq_mul] using
      List.sum_le_card_nsmul
        ((searchDatesOf ctx base).map (List.length ∘ datePairsFor ctx)) 5
        (by
          intro x hx
          rcases List.mem_map.1 hx with ⟨sd, _, rfl⟩
          exact datePairsFor_length_le ctx sd)
  calc ((searchDatesOf ctx base).map (List.length ∘ datePairsFor ctx)).sum
      ≤ ((searchDatesOf ctx base).map (List.length ∘ datePairsFor ctx)).length * 5 := hb
    _ = 25 := by rw [List.length_map, searchDatesOf_length]

/-- Claim C7: with start-of-month flexibility, no duration information and a
base departure date on the 1st of a (valid) month, the expansion produces
exactly the five one-way pairs for the 1st through the 5th of that month,
with no return date on any of them. -/
theorem c7_start_of_month_one_way (y m : Nat) (h1 : 1 ≤ m) (h2 : m ≤ 12) :
    expandPairs { is_start_of_month := true, duration_days := none } ⟨y, m, 1⟩ =
      [(⟨y, m, 1⟩, none), (⟨y, m, 2⟩, none), (⟨y, m, 3⟩, none),
       (⟨y, m, 4⟩, none), (⟨y, m, 5⟩, none)] := by
  have hd : 28 ≤ daysInMonth y m := daysInMonth_ge y m
  have n1 : nextDay ⟨y, m, 1⟩ = ⟨y, m, 2⟩ := by
    unfold nextDay; rw [if_pos (by simp; omega)]
  have n2 : nextDay ⟨y, m, 2⟩ = ⟨y, m, 3⟩ := by
    unfold nextDay; rw [if_pos (by simp; omega)]
  have n3 : nextDay ⟨y, m, 3⟩ = ⟨y, m, 4⟩ := by
    unfold nextDay; rw [if_pos (by simp; omega)]
  have n4 : nextDay ⟨y, m, 4⟩ = ⟨y, m, 5⟩ := by
    unfold nextDay; rw [if_pos (by simp; omega)]
  have e0 : addDays ⟨y, m, 1⟩ 0 = ⟨y, m, 1⟩ := rfl
  have e1 : addDays ⟨y, m, 1⟩ 1 = nextDay (addDays ⟨y, m, 1⟩ 0) := rfl
  have e2 : addDays ⟨y, m, 1⟩ 2 = nextDay (addDays ⟨y, m, 1⟩ 1) := rfl
  have e3 : addDays ⟨y, m, 1⟩ 3 = nextDay (addDays ⟨y, m, 1⟩ 2) := rfl
  have e4 : addDays ⟨y, m, 1⟩ 4 = nextDay (addDays ⟨y, m, 1⟩ 3) := rfl
  simp only [expandPairs, searchDatesOf, datePairsFor,
    show List.range 5 = [0, 1, 2, 3, 4] from rfl]
  simp [e0, e1, e2, e3, e4, n1, n2, n3, n4, datePairsFor]

/-- Claim C7, witness: the concrete month June 2025. -/
theorem c7_witness :
    1 ≤ 6 ∧ 6 ≤ 12 ∧
      expandPairs { is_start_of_month := true, duration_days := none }
          ⟨2025, 6, 1⟩ =
        [(⟨2025, 6, 1⟩, none), (⟨2025, 6, 2⟩, none), (⟨2025, 6, 3⟩, none),
         (⟨2025, 6, 4⟩, none), (⟨2025, 6, 5⟩, none)] :=
  ⟨by decide, by decide, c7_start_of_month_one_way 2025 6 (by decide) (by decide)⟩

/-! ## Permutation properties of the ranking pipeline -/

/-- Stable insertion only reorders: the result is a permutation of
`x :: l`. -/
theorem pyInsert_perm (le : α → α → Bool) (x : α) :
    ∀ l : List α, (pyInsert le x l).Perm (x :: l)
  | [] => .refl _
  | y :: ys => by
      unfold pyInsert
      split
      · exact .refl _
      · exact ((pyInsert_perm le x ys).cons y).trans (List.Perm.swap x y ys)

/-- The stable sort is a permutation of its input. -/
theorem pySort_perm (le : α → α → Bool) : ∀ l : List α, (pySort le l).Perm l
  | [] => .refl _
  | x :: xs => (pyInsert_perm le x (pySort le xs)).trans ((pySort_perm le xs).cons x)

/-- A successful scoring step returns the very ticket it scored. -/
theorem scoreTicket_fst {b : Bool} {t : Ticket} {s : Ticket × ℚ}
    (h : scoreTicket b t = .ok s) : s.1 = t := by
  unfold scoreTicket at h
  split at h
  · split at h
    · cases h
    · injection h with h1; rw [← h1]
  · injection h with h1; rw [← h1]

/-- A successfully scored group carries exactly the group's tickets, in
order. -/
theorem scoreGroup_fst (b : Bool) :
    ∀ (g : List Ticket) (scored : List (Ticket × ℚ)),
      scoreGroup b g = .ok scored → scored.map Prod.fst = g := by
  intro g
  induction g with
  | nil =>
      intro scored h
      unfold scoreGroup at h
      injection h with h1
      rw [← h1]
      rfl
  | cons t ts ih =>
      intro scored h
      unfold scoreGroup at h
      cases hs : scoreTicket b t with
      | exn => rw [hs] at h; cases h
      | ok s =>
          rw [hs] at h
          cases hr : scoreGroup b ts with
          | exn => rw [hr] at h; cases h
          | ok rest =>
              rw [hr] at h
              injection h with h1
              rw [← h1]
              simp [scoreTicket_fst hs, ih rest hr]

/-- Sorting a band only reorders it. -/
theorem sortGroup_perm {g sg : List Ticket} (h : sortGroup g = .ok sg) :
    sg.Perm g := by
  unfold sortGroup at h
  cases hs : scoreGroup (decide (1 < g.length)) g with
  | exn => rw [hs] at h; cases h
  | ok scored =>
      rw [hs] at h
      injection h with h1
      rw [← h1]
      have hperm := (pySort_perm scoreDescLE scored).map Prod.fst
      rw [scoreGroup_fst _ _ _ hs] at hperm
      exact hperm

/-- A successful `rankGroups` run returns the concatenation, in band order,
of a permutation of each band. -/
theorem rankGroups_bands :
    ∀ {gs : List (List Ticket)} {out : List Ticket},
      rankGroups gs = .ok out →
      ∃ gs', List.Forall₂ (fun a b => a.Perm b) gs' gs ∧ out = gs'.flatten := by
  intro gs
  induction gs with
  | nil =>
      intro out h
      unfold rankGroups at h
      injection h with h1
      exact ⟨[], .nil, by rw [← h1]; rfl⟩
  | cons g gs ih =>
      intro out h
      unfold rankGroups at h
      cases hs : sortGroup g with
      | exn => rw [hs] at h; cases h
      | ok sg =>
          rw [hs] at h
          cases hr : rankGroups gs with
          | exn => rw [hr] at h; cases h
          | ok rest =>
              rw [hr] at h
              injection h with h1
              obtain ⟨gs', hf, hout⟩ := ih hr
              exact ⟨sg :: gs', .cons (sortGroup_perm hs) hf,
                by rw [← h1, hout]; rfl⟩

/-- Band-wise permutations concatenate to a permutation. -/
theorem flatten_perm_of_bands {l₁ l₂ : List (List Ticket)}
    (h : List.Forall₂ (fun a b => a.Perm b) l₁ l₂) :
    l₁.flatten.Perm l₂.flatten := by
  induction h with
  | nil => exact .refl _
  | cons hab _ ih => simpa using hab.append ih

/-- The grouping loop partitions its input in order: the groups flatten
back to the processed prefix. -/
theorem buildGroupsGo_flatten (m : ℚ) :
    ∀ (l : List Ticket) (groups : List (List Ticket)) (current : List Ticket)
      (gs : List (List Ticket)),
      buildGroupsGo m l groups current = .ok gs →
      gs.flatten = groups.flatten ++ (current ++ l) := by
  intro l
  induction l with
  | nil =>
      intro groups current gs h
      unfold buildGroupsGo at h
      injection h with h1
      rw [← h1]
      by_cases hc : current.isEmpty
      · rw [if_pos hc]
        simp [List.isEmpty_iff.1 hc]
      · rw [if_neg hc]
        simp [List.flatten_append]
  | cons t rest ih =>
      intro groups current gs h
      unfold buildGroupsGo at h
      cases hp : t.price with
      | none => rw [hp] at h; cases h
      | some p =>
          rw [hp] at h
          dsimp only at h
          by_cases hm : m = 0
          · rw [if_pos hm] at h; cases h
          · rw [if_neg hm] at h
            by_cases hcond :
                (current.isEmpty || decide ((p - m) / m * 100 ≤ 10)) = true
            · rw [if_pos hcond] at h
              rw [ih _ _ _ h]
              simp
            · rw [if_neg hcond] at h
              rw [ih _ _ _ h]
              simp [List.flatten_append]

/-- `codeBands` partitions the pool: its groups flatten back to the pool. -/
theorem codeBands_flatten {ts : List Ticket} {gs : List (List Ticket)}
    (h : codeBands ts = .ok gs) : gs.flatten = ts := by
  unfold codeBands at h
  cases ts with
  | nil =>
      simp only [List.head?_nil] at h
      injection h with h1
      rw [← h1]
      rfl
  | cons t ts' =>
      simp only [List.head?_cons] at h
      cases hp : t.price with
      | none => rw [hp] at h; cases h
      | some m =>
          rw [hp] at h
          simpa using buildGroupsGo_flatten m (t :: ts') [] [] gs h

/-- A successful run of the grouping/scoring pipeline permutes the sorted
pool. -/
theorem rank_core_perm {sorted out : List Ticket}
    (h : rank_core sorted = .ok out) : out.Perm sorted := by
  unfold rank_core at h
  cases hb : codeBands sorted with
  | exn => rw [hb] at h; cases h
  | ok gs =>
      rw [hb] at h
      obtain ⟨gs', hf, hout⟩ := rankGroups_bands h
      rw [hout]
      have hp := flatten_perm_of_bands hf
      rw [codeBands_flatten hb] at hp
      exact hp

/-- `_rank_tickets` always returns a permutation of its input, on both the
normal and the exception-fallback path. -/
theorem rank_tickets_perm : ∀ ts : List Ticket, (_rank_tickets ts).Perm ts := by
  intro ts
  cases ts with
  | nil => exact .refl _
  | cons t ts' =>
      cases hc : rank_core (pySort priceKeyLE (t :: ts')) with
      | exn =>
          have he : _rank_tickets (t :: ts') = pySort priceKeyLE (t :: ts') := by
            simp [_rank_tickets, hc]
          rw [he]
          exact pySort_perm _ _
      | ok out =>
          have he : _rank_tickets (t :: ts') = out := by
            simp [_rank_tickets, hc]
          rw [he]
          exact (rank_core_perm hc).trans (pySort_perm _ _)

/-- Claim C9: `_rank_tickets` returns a permutation of its input — no
ticket is dropped, added or truncated by the ranking step itself (the
exception fallback returns the price-sorted input, still a permutation) —
and the truncation to the top 10 happens only in the caller
`search_tickets_with_flexible_dates`, after ranking. -/
theorem c9_rank_is_permutation :
    (∀ ts : List Ticket, (_rank_tickets ts).Perm ts) ∧
      (∀ rs : List QueryOutcome, gatherTickets rs ≠ [] →
        (flexibleOutcome rs).data = (_rank_tickets (gatherTickets rs)).take 10) := by
  refine ⟨rank_tickets_perm, fun rs hne => ?_⟩
  unfold flexibleOutcome
  rw [if_neg (by simpa [List.isEmpty_iff] using hne)]

/-- Claim C9, witness: a concrete two-ticket pool and a concrete query-result
list with a non-empty merged pool. -/
theorem c9_witness :
    (_rank_tickets [⟨some 100, some 240, some 0⟩, ⟨some 90, some 300, some 1⟩]).Perm
        [⟨some 100, some 240, some 0⟩, ⟨some 90, some 300, some 1⟩] ∧
      (flexibleOutcome [.result ⟨true, [⟨some 100, some 240, some 0⟩]⟩]).data =
        (_rank_tickets
            (gatherTickets [.result ⟨true, [⟨some 100, some 240, some 0⟩]⟩])).take 10 :=
  ⟨c9_rank_is_permutation.1 _,
   c9_rank_is_permutation.2 [.result ⟨true, [⟨some 100, some 240, some 0⟩]⟩]
     (by decide)⟩

/-- Claim C4, counterexample: a ticket with price `0` (non-positive) is
**not** excluded from the ranked output.  With the pool
`[price 100, price 0]` the zero price becomes `min_price`, the band loop
raises `ZeroDivisionError`, and the `except` handler returns the whole
price-sorted pool — zero-priced ticket included (in first position). -/
theorem c4_counterexample :
    (⟨some 0, some 240, some 0⟩ : Ticket) ∈
      _rank_tickets [⟨some 100, some 240, some 0⟩, ⟨some 0, some 240, some 0⟩] := by
  with_unfolding_all decide

/-- Claim C4, amended: `_rank_tickets` excludes nothing — every input
ticket, whether or not its price is missing or non-positive, appears in the
ranked output (the output is a permutation of the input; a zero or missing
price merely routes the call through the exception fallback, which returns
the full price-sorted pool). -/
theorem c4_amended (ts : List Ticket) (t : Ticket) (h : t ∈ ts) :
    t ∈ _rank_tickets ts :=
  (rank_tickets_perm ts).mem_iff.2 h

/-- Claim C4, witness: a missing-price ticket is kept as well. -/
theorem c4_witness :
    (⟨none, some 240, some 0⟩ : Ticket) ∈
        [(⟨some 100, some 240, some 0⟩ : Ticket), ⟨none, some 240, some 0⟩] ∧
      (⟨none, some 240, some 0⟩ : Ticket) ∈
        _rank_tickets [⟨some 100, some 240, some 0⟩, ⟨none, some 240, some 0⟩] :=
  ⟨by decide, c4_amended _ _ (by decide)⟩

/-! ## The band partition actually computed by the code (claim C2) -/

/-- Unpack a successful closeness test: the ticket has a price within 10 %
of `m`. -/
theorem closeToMin_some {m : ℚ} {t : Ticket} (h : closeToMin m t = true) :
    ∃ p, t.price = some p ∧ (p - m) / m * 100 ≤ 10 := by
  unfold closeToMin at h
  cases hp : t.price with
  | none => rw [hp] at h; cases h
  | some p =>
      rw [hp] at h
      exact ⟨p, rfl, of_decide_eq_true h⟩

/-- One step of the grouping loop on a ticket within the 10 % threshold:
the ticket joins `current_group`. -/
theorem buildGroupsGo_cons_close (m : ℚ) (hm : m ≠ 0) (t : Ticket)
    (rest : List Ticket) (groups : List (List Ticket)) (current : List Ticket)
    (p : ℚ) (hp : t.price = some p) (hclose : (p - m) / m * 100 ≤ 10) :
    buildGroupsGo m (t :: rest) groups current =
      buildGroupsGo m rest groups (current ++ [t]) := by
  simp only [buildGroupsGo, hp]
  rw [if_neg hm, if_pos (by simp [hclose])]

/-- One step of the grouping loop on a ticket beyond the 10 % threshold
while `current_group` is non-empty: the group is flushed and the ticket
starts a new one. -/
theorem buildGroupsGo_cons_far (m : ℚ) (hm : m ≠ 0) (t : Ticket)
    (rest : List Ticket) (groups : List (List Ticket)) (current : List Ticket)
    (p : ℚ) (hp : t.price = some p) (hfar : ¬(p - m) / m * 100 ≤ 10)
    (hcur : current ≠ []) :
    buildGroupsGo m (t :: rest) groups current =
      buildGroupsGo m rest (groups ++ [current]) [t] := by
  simp only [buildGroupsGo, hp]
  rw [if_neg hm, if_neg (by simp [List.isEmpty_iff, hcur, hfar])]

/-- While every processed ticket is within 10 % of the minimum, the grouping
loop only extends `current_group`. -/
theorem buildGroupsGo_append_close (m : ℚ) (hm : m ≠ 0) :
    ∀ (T D : List Ticket) (groups : List (List Ticket)) (current : List Ticket),
      (∀ t ∈ T, closeToMin m t = true) →
      buildGroupsGo m (T ++ D) groups current =
        buildGroupsGo m D groups (current ++ T) := by
  intro T
  induction T with
  | nil => intro D groups current _; simp
  | cons t T' ih =>
      intro D groups current hT
      obtain ⟨p, hp, hclose⟩ := closeToMin_some (hT t (by simp))
      rw [List.cons_append,
        buildGroupsGo_cons_close m hm t (T' ++ D) groups current p hp hclose,
        ih D groups (current ++ [t]) (fun x hx => hT x (by simp [hx])),
        List.append_assoc]
      rfl

/-- Once every remaining ticket is beyond 10 % of the minimum, each of them
is flushed into its own singleton group. -/
theorem buildGroupsGo_far (m : ℚ) (hm : m ≠ 0) :
    ∀ (D : List Ticket) (groups : List (List Ticket)) (current : List Ticket),
      current ≠ [] →
      (∀ t ∈ D, t.price.isSome ∧ closeToMin m t = false) →
      buildGroupsGo m D groups current =
        .ok (groups ++ [current] ++ D.map (fun t => [t])) := by
  intro D
  induction D with
  | nil =>
      intro groups current hcur _
      simp only [buildGroupsGo]
      rw [if_neg (by simpa [List.isEmpty_iff] using hcur)]
      simp
  | cons t D' ih =>
      intro groups current hcur hD
      obtain ⟨hsome, hfar⟩ := hD t (by simp)
      obtain ⟨p, hp⟩ := Option.isSome_iff_exists.1 hsome
      have hfar' : ¬(p - m) / m * 100 ≤ 10 := by
        have hx := hfar
        unfold closeToMin at hx
        rw [hp] at hx
        exact of_decide_eq_false hx
      rw [buildGroupsGo_cons_far m hm t D' groups current p hp hfar' hcur,
        ih (groups ++ [current]) [t] (by simp)
          (fun x hx => hD x (by simp [hx]))]
      simp

/-- Closeness to the minimum is monotone downwards in price: if a cheaper
ticket is already beyond the 10 % threshold, so is every pricier one. -/
theorem closeToMin_mono {m : ℚ} (hm : 0 < m) {a b : Ticket}
    (hab : priceKeyLE a b = true) (ha : a.price.isSome)
    (hfa : closeToMin m a = false) : closeToMin m b = false := by
  obtain ⟨pa, hpa⟩ := Option.isSome_iff_exists.1 ha
  cases hpb : b.price with
  | none => unfold closeToMin; rw [hpb]
  | some pb =>
      have hle : pa ≤ pb := by
        unfold priceKeyLE at hab
        rw [hpa, hpb] at hab
        exact of_decide_eq_true hab
      have hfar : ¬(pa - m) / m * 100 ≤ 10 := by
        unfold closeToMin at hfa
        rw [hpa] at hfa
        exact of_decide_eq_false hfa
      unfold closeToMin
      rw [hpb]
      apply decide_eq_false
      intro hcontra
      apply hfar
      calc (pa - m) / m * 100 ≤ (pb - m) / m * 100 := by gcongr
        _ ≤ 10 := hcontra

/-- In a price-sorted pool, everything after the `takeWhile` prefix of
tickets within 10 % of the minimum is beyond the threshold. -/
theorem dropWhile_far (m : ℚ) (hm : 0 < m) :
    ∀ ts : List Ticket, (∀ x ∈ ts, x.price.isSome) →
      ts.Pairwise (fun a b => priceKeyLE a b = true) →
      ∀ x ∈ ts.dropWhile (closeToMin m), x.price.isSome ∧ closeToMin m x = false := by
  intro ts
  induction ts with
  | nil => intro _ _ x hx; simp at hx
  | cons t ts' ih =>
      intro hall hsort x hx
      rw [List.dropWhile_cons] at hx
      by_cases hc : closeToMin m t = true
      · rw [if_pos hc] at hx
        exact ih (fun y hy => hall y (by simp [hy])) (List.Pairwise.sublist
          (List.sublist_cons_self t ts') hsort) x hx
      · rw [if_neg hc] at hx
        have hcf : closeToMin m t = false := by inhabit Bool; revert hc; cases closeToMin m t <;> simp
        rcases List.mem_cons.1 hx with rfl | hx'
        · exact ⟨hall x (by simp), hcf⟩
        · refine ⟨hall x (by simp [hx']), ?_⟩
          exact closeToMin_mono hm ((List.pairwise_cons.1 hsort).1 x hx')
            (hall t (by simp)) hcf

/-- Claim C2, counterexample: with the price-sorted pool
`[100, 111, 112]` the source compares every ticket against the *global*
minimum `100`, not against the current band's starting price.  The claim's
rule would put `112` into `111`'s band (`(112−111)/111 ≈ 0.9 % ≤ 10 %`),
but the code leaves `111` and `112` in separate singleton bands. -/
theorem c2_counterexample :
    codeBands [⟨some 100, some 240, some 0⟩, ⟨some 111, some 240, some 0⟩,
        ⟨some 112, some 240, some 0⟩] =
      .ok [[⟨some 100, some 240, some 0⟩], [⟨some 111, some 240, some 0⟩],
        [⟨some 112, some 240, some 0⟩]] ∧
      specBands [⟨some 100, some 240, some 0⟩, ⟨some 111, some 240, some 0⟩,
          ⟨some 112, some 240, some 0⟩] =
        [[⟨some 100, some 240, some 0⟩],
         [⟨some 111, some 240, some 0⟩, ⟨some 112, some 240, some 0⟩]] := by
  constructor
  · with_unfolding_all decide
  · with_unfolding_all decide

/-- Claim C2, amended: in `_rank_tickets` a ticket of the price-sorted pool
joins the current band exactly when its price exceeds the **pool-wide
minimum price** (the first ticket's price) by at most 10 % of that minimum —
not the current band's starting price.  Consequently the partition is: one
first band holding every ticket within 10 % of the minimum, followed by one
singleton band per remaining ticket. -/
theorem c2_amended (t : Ticket) (rest : List Ticket) (m : ℚ)
    (hp : t.price = some m) (hm : 0 < m)
    (hall : ∀ x ∈ t :: rest, x.price.isSome)
    (hsort : (t :: rest).Pairwise (fun a b => priceKeyLE a b = true)) :
    codeBands (t :: rest) =
      .ok ((t :: rest).takeWhile (closeToMin m) ::
        ((t :: rest).dropWhile (closeToMin m)).map (fun x => [x])) := by
  have hm0 : m ≠ 0 := ne_of_gt hm
  have hclose_t : closeToMin m t = true := by
    unfold closeToMin
    rw [hp]
    apply decide_eq_true
    have : (m - m) / m * 100 = 0 := by simp
    rw [this]
    norm_num
  have hT : (t :: rest).takeWhile (closeToMin m) =
      t :: rest.takeWhile (closeToMin m) := by
    rw [List.takeWhile_cons, if_pos hclose_t]
  unfold codeBands
  simp only [List.head?_cons]
  rw [hp]
  dsimp only
  calc buildGroupsGo m (t :: rest) [] []
      = buildGroupsGo m
          ((t :: rest).takeWhile (closeToMin m) ++
            (t :: rest).dropWhile (closeToMin m)) [] [] := by
        rw [List.takeWhile_append_dropWhile]
    _ = buildGroupsGo m ((t :: rest).dropWhile (closeToMin m)) []
          ([] ++ (t :: rest).takeWhile (closeToMin m)) :=
        buildGroupsGo_append_close m hm0 _ _ _ _
          (fun x hx => List.mem_takeWhile_imp hx)
    _ = .ok ([] ++ [(t :: rest).takeWhile (closeToMin m)] ++
          ((t :: rest).dropWhile (closeToMin m)).map (fun x => [x])) := by
        rw [List.nil_append]
        exact buildGroupsGo_far m hm0 _ _ _ (by rw [hT]; simp)
          (dropWhile_far m hm _ hall hsort)
    _ = .ok ((t :: rest).takeWhile (closeToMin m) ::
          ((t :: rest).dropWhile (closeToMin m)).map (fun x => [x])) := by
        simp

/-- Claim C2, witness: the concrete sorted pool with prices
`[100, 105, 200]` — the first band collects `100` and `105`, and `200`
forms a singleton band. -/
theorem c2_witness :
    ((⟨some 100, some 240, some 0⟩ : Ticket).price = some 100 ∧ (0:ℚ) < 100) ∧
      codeBands [⟨some 100, some 240, some 0⟩, ⟨some 105, some 240, some 0⟩,
          ⟨some 200, some 240, some 0⟩] =
        .ok (([(⟨some 100, some 240, some 0⟩ : Ticket),
            ⟨some 105, some 240, some 0⟩, ⟨some 200, some 240, some 0⟩]).takeWhile
              (closeToMin 100) ::
          (([(⟨some 100, some 240, some 0⟩ : Ticket),
            ⟨some 105, some 240, some 0⟩, ⟨some 200, some 240, some 0⟩]).dropWhile
              (closeToMin 100)).map (fun x => [x])) :=
  ⟨⟨rfl, by norm_num⟩,
   c2_amended ⟨some 100, some 240, some 0⟩
     [⟨some 105, some 240, some 0⟩, ⟨some 200, some 240, some 0⟩] 100 rfl
     (by norm_num) (by with_unfolding_all decide) (by with_unfolding_all decide)⟩

/-- Claim C8: on the normal (exception-free) path, the ranked sequence of
`_rank_tickets` is exactly the concatenation, in ascending price-band order,
of a permutation of each band produced by the grouping step — so no ticket
of a higher (more expensive) band ever precedes a ticket of a lower band in
the output. -/
theorem c8_band_order (ts : List Ticket) (gs : List (List Ticket))
    (out : List Ticket)
    (hb : codeBands (pySort priceKeyLE ts) = .ok gs)
    (hr : rankGroups gs = .ok out) :
    _rank_tickets ts = out ∧
      ∃ gs', List.Forall₂ (fun a b => a.Perm b) gs' gs ∧ out = gs'.flatten := by
  constructor
  · cases ts with
    | nil =>
        have hgs : ([] : List (List Ticket)) = gs := by injection hb
        have hout : ([] : List Ticket) = out := by
          rw [← hgs] at hr
          injection hr
        rw [← hout]
        rfl
    | cons t ts' =>
        have hc : rank_core (pySort priceKeyLE (t :: ts')) = .ok out := by
          unfold rank_core
          rw [hb]
          exact hr
        simp [_rank_tickets, hc]
  · exact rankGroups_bands hr

set_option maxRecDepth 10000 in
/-- Claim C8, witness: a concrete pool with a two-ticket cheap band and a
singleton expensive band, ranked without exceptions. -/
theorem c8_witness :
    codeBands (pySort priceKeyLE
        [⟨some 100, some 240, some 0⟩, ⟨some 105, some 480, some 1⟩,
         ⟨some 300, some 240, some 0⟩]) =
      .ok [[⟨some 100, some 240, some 0⟩, ⟨some 105, some 480, some 1⟩],
        [⟨some 300, some 240, some 0⟩]] ∧
      (_rank_tickets
          [⟨some 100, some 240, some 0⟩, ⟨some 105, some 480, some 1⟩,
           ⟨some 300, some 240, some 0⟩] =
        [⟨some 100, some 240, some 0⟩, ⟨some 105, some 480, some 1⟩,
         ⟨some 300, some 240, some 0⟩] ∧
      ∃ gs', List.Forall₂ (fun a b => a.Perm b) gs'
          [[⟨some 100, some 240, some 0⟩, ⟨some 105, some 480, some 1⟩],
           [⟨some 300, some 240, some 0⟩]] ∧
        [(⟨some 100, some 240, some 0⟩ : Ticket), ⟨some 105, some 480, some 1⟩,
         ⟨some 300, some 240, some 0⟩] = gs'.flatten) :=
  ⟨by with_unfolding_all decide,
   c8_band_order _ _ _ (by with_unfolding_all decide) (by with_unfolding_all decide)⟩

/-! ## Orchestration properties (claims C5 and C6) -/

/-- If no settled query passes the line-401 filter, nothing is merged. -/
theorem gatherTickets_eq_nil :
    ∀ rs : List QueryOutcome, (∀ r ∈ rs, countedQuery r = false) →
      gatherTickets rs = []
  | [], _ => rfl
  | .exn :: rs, h =>
      gatherTickets_eq_nil rs (fun x hx => h x (by simp [hx]))
  | .result q :: rs, h => by
      have hq : (q.success && !q.data.isEmpty) = false := by
        simpa [countedQuery] using h (.result q) (by simp)
      simp only [gatherTickets, hq]
      simp [gatherTickets_eq_nil rs (fun x hx => h x (by simp [hx]))]

/-- If some settled query passes the line-401 filter, the merged pool is
non-empty. -/
theorem gatherTickets_ne_nil :
    ∀ rs : List QueryOutcome, (∃ r ∈ rs, countedQuery r = true) →
      gatherTickets rs ≠ [] := by
  intro rs
  induction rs with
  | nil =>
      intro h
      obtain ⟨r, hr, _⟩ := h
      simp at hr
  | cons a rs ih =>
      intro h
      obtain ⟨r, hr, hc⟩ := h
      cases a with
      | exn =>
          rcases List.mem_cons.1 hr with rfl | h'
          · simp [countedQuery] at hc
          · simpa [gatherTickets] using ih ⟨r, h', hc⟩
      | result q =>
          rcases List.mem_cons.1 hr with rfl | h'
          · have hcc : (q.success && !q.data.isEmpty) = true := by
              simpa [countedQuery] using hc
            have hd : q.data ≠ [] := by
              intro hnil
              rw [hnil] at hcc
              simp at hcc
            simp only [gatherTickets, hcc, if_pos]
            intro heq
            exact hd (List.append_eq_nil.1 heq).1
          · have hrest := ih ⟨r, h', hc⟩
            simp only [gatherTickets]
            intro heq
            exact hrest (List.append_eq_nil.1 heq).2

/-- Claim C5: when every issued date-pair query fails (or none returns
candidates — i.e. nothing passes the line-401 filter), the search returns
the error **value** `success=False, error="No tickets found"`; the result is
a total function of the settled outcomes, never a raised exception. -/
theorem c5_all_failed_error_value (rs : List QueryOutcome)
    (h : ∀ r ∈ rs, countedQuery r = false) :
    flexibleOutcome rs =
      { success := false, data := [], error := some "No tickets found",
        total_found := none } := by
  unfold flexibleOutcome
  rw [gatherTickets_eq_nil rs h]
  rfl

/-- Claim C5, witness: one exception, one failed query, one successful query
with an empty data list. -/
theorem c5_witness :
    (∀ r ∈ allFailedResults, countedQuery r = false) ∧
      flexibleOutcome allFailedResults =
        { success := false, data := [], error := some "No tickets found",
          total_found := none } :=
  ⟨by decide, c5_all_failed_error_value _ (by decide)⟩

/-- Claim C6, counterexample: a query that *succeeds* (`success=True`) but
returns an empty candidate list is treated like a failure — with it as the
only settled query the search is reported unsuccessful, although at least
one date-pair query succeeded. -/
theorem c6_counterexample :
    ({ success := true, data := [] } : QueryResult).success = true ∧
      (flexibleOutcome [.result { success := true, data := [] }]).success = false := by
  constructor <;> rfl

/-- Claim C6, amended: the merged pool is always exactly the concatenation,
in settling order, of the `data` lists of the successful queries; and if at
least one query succeeds **with a non-empty candidate list**, the search is
reported as successful.  (The code waits for every query via
`asyncio.gather` before merging, which is modelled by the outcome being a
function of the full settled-result list.) -/
theorem c6_amended (rs : List QueryOutcome) :
    gatherTickets rs = (rs.map successData).flatten ∧
      ((∃ r ∈ rs, countedQuery r = true) → (flexibleOutcome rs).success = true) := by
  constructor
  · induction rs with
    | nil => rfl
    | cons r rs ih =>
        cases r with
        | exn => simpa [gatherTickets, successData] using ih
        | result q =>
            by_cases hs : q.success = true
            · by_cases hd : q.data.isEmpty = true
              · have hdata : q.data = [] := List.isEmpty_iff.1 hd
                simp [gatherTickets, successData, hs, hdata, ih]
              · simp [gatherTickets, successData, hs, hd, ih]
            · have hs' : q.success = false := by
                revert hs
                cases q.success <;> simp
              simp [gatherTickets, successData, hs', ih]
  · intro hex
    unfold flexibleOutcome
    rw [if_neg (by simpa [List.isEmpty_iff] using gatherTickets_ne_nil rs hex)]

/-- Claim C6, witness: five settled queries — three failures (an exception,
a failed query and a success with no data) plus two successes with 4 and 6
candidates — merge into a pool of exactly 10 candidates and a successful
search. -/
theorem c6_witness :
    (∃ r ∈ mixedResults, countedQuery r = true) ∧
      (gatherTickets mixedResults).length = 10 ∧
      (flexibleOutcome mixedResults).success = true :=
  ⟨by decide, by decide, (c6_amended _).2 (by decide)⟩

/-! ## Dialog-state properties (claims C3 and C10) -/

/-- Claim C3, counterexample: starting from the empty state and merging
`origin = "LED"`, then `destination = "BKK"` and
`departure_at = "2025-02-01"`, does **not** yield a complete state — the
source's `is_complete` also requires the city names `origin_city` and
`destination_city`, which are still `None`. -/
theorem c3_counterexample :
    (((DialogState.empty 1).update_from_params
          { origin := some (some "LED") }).update_from_params
        { destination := some (some "BKK"),
          departure_at := some (some "2025-02-01") }).is_complete = false := by
  decide

/-- Claim C3, amended: the state is complete (eligible to trigger a search)
iff **all five** of `origin`, `destination`, `departure_at`, `origin_city`
and `destination_city` are truthy; the claim's merge scenario does reach a
complete state once the extractions also carry the two city names. -/
theorem c3_amended :
    (∀ st : DialogState, st.is_complete = true ↔
      (truthyStr st.origin = true ∧ truthyStr st.destination = true ∧
        truthyStr st.departure_at = true ∧ truthyStr st.origin_city = true ∧
        truthyStr st.destination_city = true)) ∧
      (((DialogState.empty 1).update_from_params
            { origin := some (some "LED"),
              origin_city := some (some "Санкт-Петербург") }).update_from_params
          { destination := some (some "BKK"),
            destination_city := some (some "Бангкок"),
            departure_at := some (some "2025-02-01") }).is_complete = true := by
  constructor
  · intro st
    unfold DialogState.is_complete
    simp [Bool.and_eq_true, and_assoc]
  · decide

/-- Claim C3, witness: the completeness characterization applied to a
concrete fully-populated state. -/
theorem c3_witness :
    (⟨1, some "LED", some "BKK", some "Питер", some "Бангкок",
        some "2025-02-01", none, none⟩ : DialogState).is_complete = true ↔
      (truthyStr (some "LED") = true ∧ truthyStr (some "BKK") = true ∧
        truthyStr (some "2025-02-01") = true ∧ truthyStr (some "Питер") = true ∧
        truthyStr (some "Бангкок") = true) :=
  c3_amended.1 _

/-- Claim C10: `to_search_params` returns the empty dict (modelled `none`)
whenever one of the three required fields `origin`, `destination`,
`departure_at` is falsy; every params dict it does return carries
`flexible_dates = True`, so the dispatch in `search_tickets` can never take
the single-date branch — a search from a complete dialog state always uses
the flexible-dates fan-out. -/
theorem c10_flexible_dispatch :
    (∀ st : DialogState,
      (truthyStr st.origin = false ∨ truthyStr st.destination = false ∨
        truthyStr st.departure_at = false) → st.to_search_params = none) ∧
      (∀ (st : DialogState) (p : SearchParams), st.to_search_params = some p →
        p.flexible_dates = some true ∧ searchRoute p ≠ .singleDate) := by
  constructor
  · intro st h
    unfold DialogState.to_search_params
    rw [if_neg]
    intro hcond
    rcases h with h | h | h <;> rw [h] at hcond <;> simp at hcond
  · intro st p hp
    unfold DialogState.to_search_params at hp
    by_cases hc : (truthyStr st.origin && truthyStr st.destination &&
        truthyStr st.departure_at) = true
    · rw [if_pos hc] at hp
      injection hp with h1
      have hflex : p.flexible_dates = some true := by rw [← h1]
      refine ⟨hflex, ?_⟩
      unfold searchRoute
      by_cases hv : _validate_params p = true
      · rw [if_neg (by simp [hv]), if_pos (by simp [hflex])]
        decide
      · rw [if_pos (by simp [Bool.not_eq_true] at hv; simp [hv])]
        decide
    · rw [if_neg hc] at hp
      cases hp

/-- Claim C10, witness: the empty state yields no params; a concrete
complete state yields a params dict with `flexible_dates = True` that does
not dispatch to the single-date search. -/
theorem c10_witness :
    (DialogState.empty 7).to_search_params = none ∧
      ((⟨some "LED", some "BKK", some "2025-02-01", none, some true,
            none⟩ : SearchParams).flexible_dates = some true ∧
        searchRoute
            ⟨some "LED", some "BKK", some "2025-02-01", none, some true, none⟩ ≠
          .singleDate) :=
  ⟨c10_flexible_dispatch.1 (DialogState.empty 7) (Or.inl rfl),
   c10_flexible_dispatch.2
     ⟨1, some "LED", some "BKK", some "Питер", some "Бангкок",
       some "2025-02-01", none, none⟩
     ⟨some "LED", some "BKK", some "2025-02-01", none, some true, none⟩
     (by decide)⟩

end Aibilet
